import Mathlib

/-!
Verification development for `models/train_classifier.py` of the
disaster_response_pipeline repository.

The script is a linear orchestration: load a labelled-message table from
SQLite, normalize/tokenize text, fit a grid-searched sklearn pipeline,
evaluate on a held-out split, and persist the model and a report table.

Shallow embedding conventions:
* Python strings are `String` / `List Char`; per-character operations are
  exact on ASCII (the only characters the claims exercise).
* Behaviour of third-party libraries (nltk, sklearn, pandas) invoked by the
  script is modelled from their documented semantics; each such definition
  carries a doc comment saying precisely what is modelled.
* Fallible Python code (unhandled exceptions) is modelled with `Option`:
  `none` is an uncaught exception.
* Side effects of `main` are modelled as an explicit trace of `Effect`s.
-/

set_option maxRecDepth 40000

/-- Codepoint test for the regex character class `[a-zA-Z0-9]` used in
`tokenize` (`re.sub(r'[^a-zA-Z0-9]', ' ', ...)`). -/
def isAlnumA (c : Char) : Bool :=
  (65 ≤ c.toNat && c.toNat ≤ 90) || (97 ≤ c.toNat && c.toNat ≤ 122) ||
    (48 ≤ c.toNat && c.toNat ≤ 57)

/-- Lowercase ASCII letter or digit. -/
def isLowerAlnum (c : Char) : Bool :=
  (97 ≤ c.toNat && c.toNat ≤ 122) || (48 ≤ c.toNat && c.toNat ≤ 57)

/-- ASCII digit `0`..`9`. -/
def isDigitA (c : Char) : Bool :=
  48 ≤ c.toNat && c.toNat ≤ 57

/-- Models Python `str.lower` per character: ASCII uppercase is shifted to
lowercase, everything else is untouched.  This is exact for ASCII text; the
handful of non-ASCII codepoints whose Python lowering produces extra ASCII
characters are not modelled. -/
def pyLower (c : Char) : Char :=
  if 65 ≤ c.toNat && c.toNat ≤ 90 then Char.ofNat (c.toNat + 32) else c

/-- Models Python `str.split(sep)` for a single-character separator: splits at
every occurrence, keeping empty fragments ("a  b".split(' ') has an empty
middle fragment). -/
def splitChar (sep : Char) : List Char → List (List Char)
  | [] => [[]]
  | c :: t =>
    if c = sep then [] :: splitChar sep t
    else
      match splitChar sep t with
      | h :: r => (c :: h) :: r
      | [] => [[c]]

/-- Non-empty fields of a line under space splitting: Python's
`list(filter(None, line.split(' ')))`. -/
def wordsOf (l : List Char) : List (List Char) :=
  (splitChar ' ' l).filter (fun w => !w.isEmpty)

/-- Numeric value of a decimal digit character. -/
def charVal (c : Char) : Nat := c.toNat - 48

/-- Value of a big-endian list of decimal digit characters. -/
def digitsVal (l : List Char) : Nat :=
  l.foldl (fun a c => 10 * a + charVal c) 0

/-- Big-endian decimal digits of `n`, with explicit fuel so that the kernel
can evaluate it (`fuel ≥ n` suffices). -/
def natReprAux : Nat → Nat → List Char
  | 0, _ => []
  | fuel + 1, n =>
    if n = 0 then [] else natReprAux fuel (n / 10) ++ [Nat.digitChar (n % 10)]

/-- Decimal string of a natural number, as Python prints nonnegative
integers (e.g. the `support` column of a classification report). -/
def natRepr (n : Nat) : List Char :=
  if n = 0 then ['0'] else natReprAux n n

/-- Python whitespace stripped by `float()` around its argument. -/
def isPyWs (c : Char) : Bool :=
  c.toNat = 32 || c.toNat = 9 || c.toNat = 10 || c.toNat = 13 ||
    c.toNat = 11 || c.toNat = 12

/-- Strip leading and trailing Python whitespace. -/
def stripWs (l : List Char) : List Char :=
  ((l.dropWhile isPyWs).reverse.dropWhile isPyWs).reverse

/-- Exponent-free mantissa value: integer part digits `ip`, fraction digits
`fp`. -/
def mantVal (ip fp : List Char) : ℚ :=
  (digitsVal ip : ℚ) + (digitsVal fp : ℚ) / ((10 ^ fp.length : ℕ) : ℚ)

/-- Trailing exponent digits of a Python float literal: at least one digit,
scaling the mantissa by a power of ten. -/
def expVal (v : ℚ) (negE : Bool) (d : List Char) : Option ℚ :=
  if !d.isEmpty && d.all isDigitA then
    some (if negE then v / ((10 ^ digitsVal d : ℕ) : ℚ)
          else v * ((10 ^ digitsVal d : ℕ) : ℚ))
  else none

/-- Optionally signed exponent part after `e`/`E`. -/
def parseExp (v : ℚ) (r : List Char) : Option ℚ :=
  if r.head? = some '+' then expVal v false r.tail
  else if r.head? = some '-' then expVal v true r.tail
  else expVal v false r

/-- What may follow a mantissa: nothing, or an exponent marker. -/
def withExp (v : ℚ) (r : List Char) : Option ℚ :=
  if r.isEmpty then some v
  else if r.head? = some 'e' || r.head? = some 'E' then parseExp v r.tail
  else none

/-- Unsigned Python float literal: `digits`, `digits.`, `digits.digits` or
`.digits`, optionally followed by an exponent. -/
def pyFloatUnsigned (s : List Char) : Option ℚ :=
  let ip := s.takeWhile isDigitA
  let r1 := s.dropWhile isDigitA
  if r1.head? = some '.' then
    let fp := r1.tail.takeWhile isDigitA
    let r2 := r1.tail.dropWhile isDigitA
    if ip.isEmpty && fp.isEmpty then none else withExp (mantVal ip fp) r2
  else if ip.isEmpty then none
  else withExp (digitsVal ip : ℚ) r1

/-- Models Python's `float(str)` on finite decimal literals: optional
surrounding whitespace, optional sign, decimal mantissa, optional exponent.
`none` models the `ValueError` Python raises on anything else.  The exotic
accepted spellings (`inf`, `nan`, digit-group underscores, non-ASCII digits)
are outside the model; `classification_report` never produces them. -/
def pyFloat (s0 : List Char) : Option ℚ :=
  let s := stripWs s0
  if s.head? = some '+' then pyFloatUnsigned s.tail
  else if s.head? = some '-' then Option.map Neg.neg (pyFloatUnsigned s.tail)
  else pyFloatUnsigned s

/-- Floor of a nonnegative rational (`classification_report` only formats
nonnegative metric values). -/
def ratFloorNat (q : ℚ) : Nat := q.num.toNat / q.den

/-- Models Python's `'%.2f'`-style formatting used by sklearn for the
precision/recall/f1 columns: the value rounded to two decimal places and
printed with exactly two fraction digits.  Ties are rounded up here whereas
CPython rounds the underlying binary double to even; no claim depends on the
digits produced for a tie. -/
def fmt2 (q : ℚ) : List Char :=
  let m := ratFloorNat (q * 100 + 1 / 2)
  natRepr (m / 100) ++ '.' :: [Nat.digitChar (m / 10 % 10), Nat.digitChar (m % 10)]

/-- The NLTK English stop-word list (`stopwords.words('english')`), data
shipped with nltk, loaded by `tokenize` in `train_classifier.py`. -/
def stop_words : List String :=
  ["i", "me", "my", "myself", "we", "our", "ours", "ourselves", "you",
   "you\x27re", "you\x27ve", "you\x27ll", "you\x27d", "your", "yours",
   "yourself", "yourselves", "he", "him", "his", "himself", "she",
   "she\x27s", "her", "hers", "herself", "it", "it\x27s", "its", "itself",
   "they", "them", "their", "theirs", "themselves", "what", "which", "who",
   "whom", "this", "that", "that\x27ll", "these", "those", "am", "is",
   "are", "was", "were", "be", "been", "being", "have", "has", "had",
   "having", "do", "does", "did", "doing", "a", "an", "the", "and", "but",
   "if", "or", "because", "as", "until", "while", "of", "at", "by", "for",
   "with", "about", "against", "between", "into", "through", "during",
   "before", "after", "above", "below", "to", "from", "up", "down", "in",
   "out", "on", "off", "over", "under", "again", "further", "then", "once",
   "here", "there", "when", "where", "why", "how", "all", "any", "both",
   "each", "few", "more", "most", "other", "some", "such", "no", "nor",
   "not", "only", "own", "same", "so", "than", "too", "very", "s", "t",
   "can", "will", "just", "don", "don\x27t", "should", "should\x27ve",
   "now", "d", "ll", "m", "o", "re", "ve", "y", "ain", "aren",
   "aren\x27t", "couldn", "couldn\x27t", "didn", "didn\x27t", "doesn",
   "doesn\x27t", "hadn", "hadn\x27t", "hasn", "hasn\x27t", "haven",
   "haven\x27t", "isn", "isn\x27t", "ma", "mightn", "mightn\x27t",
   "mustn", "mustn\x27t", "needn", "needn\x27t", "shan", "shan\x27t",
   "shouldn", "shouldn\x27t", "wasn", "wasn\x27t", "weren", "weren\x27t",
   "won", "won\x27t", "wouldn", "wouldn\x27t"]

/-- Noun-position lemmas of NLTK's `WordNetLemmatizer().lemmatize(w)`
(external WordNet data, not part of this repository): a finite table of
input/lemma pairs, each faithful to WordNet's morphy for that word, covering
the inflected words arising in this development; a word outside the table is
returned unchanged, matching the lemmatizer's behaviour on words that are
already base forms or unknown to WordNet. -/
def wordnetNounTable : List (String × String) :=
  [("bottles", "bottle"), ("cans", "can"), ("wills", "will"),
   ("dogs", "dog"), ("messages", "message"), ("disasters", "disaster"),
   ("feet", "foot"), ("children", "child")]

/-- Verb-position lemmas of `WordNetLemmatizer().lemmatize(w, pos='v')`,
modelled like `wordnetNounTable`. -/
def wordnetVerbTable : List (String × String) :=
  [("needed", "need"), ("running", "run"), ("reported", "report"),
   ("goes", "go"), ("helped", "help"), ("sent", "send")]

/-- The noun-position call `lemmatizer.lemmatize(w)` of `tokenize`. -/
def wn_lemmatize_noun (w : String) : String :=
  match wordnetNounTable.lookup w with
  | some l => l
  | none => w

/-- The verb-position call `lemmatizer.lemmatize(w, pos='v')` of `tokenize`. -/
def wn_lemmatize_verb (w : String) : String :=
  match wordnetVerbTable.lookup w with
  | some l => l
  | none => w

/-- The normalization line of `tokenize`:
`re.sub(r'[^a-zA-Z0-9]', ' ', text.lower())`. -/
def normalizeText (text : String) : List Char :=
  (text.data.map pyLower).map (fun c => if isAlnumA c then c else ' ')

/-- The `word_tokenize` call of `tokenize`.  Its argument here always
consists of ASCII lowercase alphanumerics and spaces (output of the
substitution above), and on such strings NLTK's punkt/treebank
`word_tokenize` coincides with whitespace splitting, which is what is
modelled. -/
def rawTokens (text : String) : List String :=
  (wordsOf (normalizeText text)).map (fun l => String.mk l)

/-- `tokenize` of `train_classifier.py`: normalize (case-fold and replace
non-alphanumerics by spaces), tokenize, drop stop words, lemmatize each
token as a noun and re-lemmatize the result as a verb. -/
def tokenize (text : String) : List String :=
  let words := (rawTokens text).filter (fun w => !stop_words.contains w)
  let lem := words.map wn_lemmatize_noun
  lem.map wn_lemmatize_verb

/-- A cell of the `Categorized_Messages` table: text columns hold strings,
category columns hold small integers (0/1 indicator values). -/
inductive Cell
  | str (s : String)
  | num (n : Nat)
deriving DecidableEq

/-- Is this cell the positive indicator value 1?  sklearn's multilabel
metrics treat a label column as a binary indicator. -/
def Cell.isOne : Cell → Bool
  | Cell.num 1 => true
  | _ => false

/-- The pandas dataframe read by `load_data`: named columns and rows of
cells.  Schema of the repository's table: `id`, `message`, `original`,
`genre`, then one 0/1 column per category. -/
structure DataFrame where
  columns : List String
  rows : List (List Cell)

/-- `load_data` of `train_classifier.py` (after the table has been read from
SQLite): `X = df['message']`, `Y = df.iloc[:, 4:]`,
`category_names = df.iloc[:, 4:].columns`.  The schema is assumed to contain
a `message` column (pandas raises a `KeyError` otherwise, which no claim
exercises). -/
def load_data (df : DataFrame) : List Cell × List (List Cell) × List String :=
  let X := df.rows.map (fun r => r.getD (df.columns.indexOf "message") (Cell.str ""))
  let Y := df.rows.map (fun r => r.drop 4)
  let category_names := df.columns.drop 4
  (X, Y, category_names)

/-- Result of sklearn's `train_test_split`, in the unpacking order used by
`main`: `X_train, X_test, Y_train, Y_test`. -/
structure SplitResult where
  x_train : List Cell
  x_test : List Cell
  y_train : List (List Cell)
  y_test : List (List Cell)

/-- Index selection `array[indices]`. -/
def selectIdx {α : Type} (l : List α) (idx : List Nat) : List α :=
  idx.filterMap l.get?

/-- Models `train_test_split(X, Y, test_size=0.2)`: the random shuffle is
made explicit as the permutation `perm` of row indices drawn by the
(unseeded) RNG; the first `ceil(0.2 * n)` shuffled indices form the test
split and the rest the training split, as in sklearn's `ShuffleSplit`. -/
def train_test_split (X : List Cell) (Y : List (List Cell)) (perm : List Nat) :
    SplitResult :=
  let n := X.length
  let n_test := (n + 4) / 5
  let test_idx := perm.take n_test
  let train_idx := perm.drop n_test
  ⟨selectIdx X train_idx, selectIdx X test_idx,
   selectIdx Y train_idx, selectIdx Y test_idx⟩

/-- Does row `r` carry the positive indicator for label column `j`? -/
def posAt (r : List Cell) (j : Nat) : Bool :=
  match r.get? j with
  | some c => c.isOne
  | none => false

/-- True positives of label `j`: samples positive in both truth and
prediction. -/
def tpC (yT yP : List (List Cell)) (j : Nat) : Nat :=
  (yT.zip yP).countP (fun q => posAt q.1 j && posAt q.2 j)

/-- False positives of label `j`. -/
def fpC (yT yP : List (List Cell)) (j : Nat) : Nat :=
  (yT.zip yP).countP (fun q => !posAt q.1 j && posAt q.2 j)

/-- False negatives of label `j`. -/
def fnC (yT yP : List (List Cell)) (j : Nat) : Nat :=
  (yT.zip yP).countP (fun q => posAt q.1 j && !posAt q.2 j)

/-- Support of label `j` in a multilabel indicator target: the number of
true samples carrying the label (sklearn: the column sum of `y_true`). -/
def suppC (yT : List (List Cell)) (j : Nat) : Nat :=
  yT.countP (fun r => posAt r j)

/-- Quotient with sklearn's `zero_division` behaviour: an undefined metric
becomes 0 (the script suppresses the accompanying warning). -/
def safeDiv (a b : ℚ) : ℚ := if b = 0 then 0 else a / b

/-- Precision of label `j`. -/
def precC (yT yP : List (List Cell)) (j : Nat) : ℚ :=
  safeDiv (tpC yT yP j : ℚ) ((tpC yT yP j : ℚ) + (fpC yT yP j : ℚ))

/-- Recall of label `j`. -/
def recC (yT yP : List (List Cell)) (j : Nat) : ℚ :=
  safeDiv (tpC yT yP j : ℚ) ((tpC yT yP j : ℚ) + (fnC yT yP j : ℚ))

/-- F1 of label `j`. -/
def f1C (yT yP : List (List Cell)) (j : Nat) : ℚ :=
  safeDiv (2 * precC yT yP j * recC yT yP j) (precC yT yP j + recC yT yP j)

/-- One body line of sklearn's textual `classification_report`: row label
followed by precision, recall, f1-score and support.  sklearn pads the
fields with extra spaces for alignment; since the script's parser splits on
spaces and discards empty fields, the model emits single separating spaces. -/
def classLine (name : String) (p r f : ℚ) (s : Nat) : List Char :=
  name.data ++ ' ' :: fmt2 p ++ ' ' :: fmt2 r ++ ' ' :: fmt2 f ++ ' ' :: natRepr s

/-- The per-class body lines of the report, one per target name, label
columns numbered from `j`. -/
def classLinesFrom (yT yP : List (List Cell)) : List String → Nat → List (List Char)
  | [], _ => []
  | n :: rest, j =>
    classLine n (precC yT yP j) (recC yT yP j) (f1C yT yP j) (suppC yT j) ::
      classLinesFrom yT yP rest (j + 1)

/-- Sum of `f j` for `j < k`. -/
def sumOver (k : Nat) (f : Nat → Nat) : Nat :=
  (List.range k).foldl (fun a j => a + f j) 0

/-- Sum of `f j : ℚ` for `j < k`. -/
def sumOverQ (k : Nat) (f : Nat → ℚ) : ℚ :=
  (List.range k).foldl (fun a j => a + f j) 0

/-- Micro-averaged metric line values: pooled true/false positive counts. -/
def microLine (yT yP : List (List Cell)) (k : Nat) : List Char :=
  let tp := (sumOver k (tpC yT yP) : ℚ)
  let fp := (sumOver k (fpC yT yP) : ℚ)
  let fn := (sumOver k (fnC yT yP) : ℚ)
  let p := safeDiv tp (tp + fp)
  let r := safeDiv tp (tp + fn)
  classLine "micro avg" p r (safeDiv (2 * p * r) (p + r)) (sumOver k (suppC yT))

/-- Unweighted mean of the per-label metrics. -/
def macLine (yT yP : List (List Cell)) (k : Nat) : List Char :=
  classLine "macro avg"
    (safeDiv (sumOverQ k (precC yT yP)) (k : ℚ))
    (safeDiv (sumOverQ k (recC yT yP)) (k : ℚ))
    (safeDiv (sumOverQ k (f1C yT yP)) (k : ℚ))
    (sumOver k (suppC yT))

/-- Support-weighted mean of the per-label metrics. -/
def weightedLine (yT yP : List (List Cell)) (k : Nat) : List Char :=
  let s := (sumOver k (suppC yT) : ℚ)
  classLine "weighted avg"
    (safeDiv (sumOverQ k (fun j => (suppC yT j : ℚ) * precC yT yP j)) s)
    (safeDiv (sumOverQ k (fun j => (suppC yT j : ℚ) * recC yT yP j)) s)
    (safeDiv (sumOverQ k (fun j => (suppC yT j : ℚ) * f1C yT yP j)) s)
    (sumOver k (suppC yT))

/-- Number of positions of row `r` among the first `k` label columns that
are positive. -/
def rowOnes (r : List Cell) (k : Nat) : Nat :=
  sumOver k (fun j => if posAt r j then 1 else 0)

/-- Positions positive in both rows among the first `k` label columns. -/
def rowBoth (t p : List Cell) (k : Nat) : Nat :=
  sumOver k (fun j => if posAt t j && posAt p j then 1 else 0)

/-- Per-sample averaged metric line (sklearn's `samples avg`, present for
multilabel targets). -/
def samplesLine (yT yP : List (List Cell)) (k : Nat) : List Char :=
  let pairs := yT.zip yP
  let n := (pairs.length : ℚ)
  let p := safeDiv (pairs.foldl (fun a q => a + safeDiv (rowBoth q.1 q.2 k : ℚ) (rowOnes q.2 k : ℚ)) 0) n
  let r := safeDiv (pairs.foldl (fun a q => a + safeDiv (rowBoth q.1 q.2 k : ℚ) (rowOnes q.1 k : ℚ)) 0) n
  classLine "samples avg" p r (safeDiv (2 * p * r) (p + r)) (sumOver k (suppC yT))

/-- Header line of sklearn's textual report. -/
def headerLine : List Char :=
  "              precision    recall  f1-score   support".data

/-- Join lines with newlines (inverse of splitting on a newline). -/
def joinLines : List (List Char) → List Char
  | [] => []
  | [l] => l
  | l :: ls => l ++ '\n' :: joinLines ls

/-- The line structure of sklearn's `classification_report` for a multilabel
indicator target with `target_names` (sklearn ≥ 0.20, the format this script
slices by fixed offsets): header, blank line, one line per class, blank
line, the four average lines (`micro`, `macro`, `weighted`, `samples`), and
the trailing empty fragment from the report's final newline. -/
def reportLines (yT yP : List (List Cell)) (names : List String) : List (List Char) :=
  let k := names.length
  [headerLine, []] ++ classLinesFrom yT yP names 0 ++
    [[], microLine yT yP k, macLine yT yP k, weightedLine yT yP k,
     samplesLine yT yP k, []]

/-- sklearn's `classification_report(Y_test, Y_pred, target_names=...)` as
the text the script reparses. -/
def classificationReport (yT yP : List (List Cell)) (names : List String) : List Char :=
  joinLines (reportLines yT yP names)

/-- One row of the dataframe built by `classification_report_df`; `cls`
holds the `'class'` column and `recall_score` the `'recall'` column (Lean
reserves the words `class` and `recall`). -/
structure ReportRow where
  cls : String
  precision : ℚ
  recall_score : ℚ
  f1_score : ℚ
  support : ℚ
deriving DecidableEq

/-- The loop body of `classification_report_df`: split a report line on
single spaces, discard empty fields, read the class label and four numbers
from the first five fields.  `none` models the `IndexError`/`ValueError`
the Python body raises when fields are missing or non-numeric. -/
def parseLine (line : List Char) : Option ReportRow := do
  let row_data := wordsOf line
  let c ← row_data.get? 0
  let p ← (← row_data.get? 1) |> pyFloat
  let r ← (← row_data.get? 2) |> pyFloat
  let f ← (← row_data.get? 3) |> pyFloat
  let s ← (← row_data.get? 4) |> pyFloat
  pure ⟨String.mk c, p, r, f, s⟩

/-- The `for line in lines[2:-6]` loop: parse each line in order, stopping
with an exception (`none`) at the first malformed line. -/
def parseLinesLoop : List (List Char) → Option (List ReportRow)
  | [] => some []
  | l :: rest =>
    match parseLine l with
    | none => none
    | some row =>
      match parseLinesLoop rest with
      | none => none
      | some rows => some (row :: rows)

/-- Python's slice `lines[2:-6]`: elements from index 2 up to, but
excluding, the sixth-from-last (empty when there are at most 8 lines). -/
def pySlice2m6 {α : Type} (l : List α) : List α :=
  (l.take (l.length - 6)).drop 2

/-- `classification_report_df` of `train_classifier.py`: split the report
text on newlines, parse the fixed slice `lines[2:-6]` into rows. -/
def classification_report_df (report : List Char) : Option (List ReportRow) :=
  let lines := splitChar '\n' report
  parseLinesLoop (pySlice2m6 lines)

/-- `evaluate_model` of `train_classifier.py`, with the fitted model's
`predict` method abstracted as a function: predict on the test features,
render the classification report, and reparse it into a dataframe (the
printing of the report and of `best_params_` carries no data flow). -/
def evaluate_model (predict : List Cell → List (List Cell)) (X_test : List Cell)
    (Y_test : List (List Cell)) (category_names : List String) :
    Option (List ReportRow) :=
  let Y_pred := predict X_test
  let report := classificationReport Y_test Y_pred category_names
  classification_report_df report

/-- The base classifier of the pipeline. -/
inductive BaseClf
  | linearSVC

/-- The classifier stage: `MultiOutputClassifier(OneVsRestClassifier(LinearSVC()))`. -/
inductive ClfCfg
  | oneVsRest (base : BaseClf)
  | multiOutput (inner : ClfCfg)

/-- Configuration of the `CountVectorizer` stage. -/
structure CountVectorizerCfg where
  tokenizer : String → List String
  ngram_range : Nat × Nat
  max_df : ℚ
  max_features : Option Nat

/-- Configuration of the sklearn `Pipeline` built by `build_model`: the
nested `text_pipeline` (vectorizer then TF-IDF) and the multi-output
classifier. -/
structure PipelineCfg where
  vect : CountVectorizerCfg
  tfidf : Bool
  multi_clf : ClfCfg

/-- Configuration of the `GridSearchCV` wrapper: the estimator, the
parameter grid (which varies only `text_pipeline__vect__max_features`; the
`ngram_range` line of the grid is commented out in the source), the scoring
string, and the worker count. -/
structure GridSearchCfg where
  estimator : PipelineCfg
  param_grid_max_features : List (Option Nat)
  scoring : String
  n_jobs : Nat
  verbose : Nat

/-- `build_model` of `train_classifier.py`. -/
def build_model : GridSearchCfg :=
  { estimator :=
      { vect :=
          { tokenizer := tokenize
            ngram_range := (1, 2)
            max_df := 1 / 2
            max_features := none }
        tfidf := true
        multi_clf := ClfCfg.multiOutput (ClfCfg.oneVsRest BaseClf.linearSVC) }
    param_grid_max_features := [none, some 10000]
    scoring := "f1_macro"
    n_jobs := 1
    verbose := 10 }

/-- A fitted `GridSearchCV` object, as far as the script observes it.  The
fitted best pipeline is opaque to the script (its contents live inside
sklearn), so it is a type parameter `E`; `predict` is the bound prediction
method used by `evaluate_model`. -/
structure FittedSearch (E : Type) where
  best_estimator_ : E
  best_params_ : Option Nat
  predict : List Cell → List (List Cell)

/-- What the script can pass to `pickle.dump`: the fitted best pipeline or
the whole grid-search wrapper. -/
inductive PickleObj (E : Type)
  | pipeline (e : E)
  | searchWrapper (g : FittedSearch E)

/-- Observable side effects of a run of the script, in program order. -/
inductive Effect (E : Type)
  | print (msg : String)
  | readSqlTable (database : String) (tbl : String)
  | splitData
  | gridSearchFit (cfg : GridSearchCfg)
  | evaluated
  | dumpPickle (path : String) (obj : PickleObj E)
  | toSql (database : String) (tbl : String) (if_exists : String)
      (rows : List ReportRow)
  | raised

/-- Is the effect the pickle serialization of `save_model`? -/
def Effect.isDump {E : Type} : Effect E → Bool
  | Effect.dumpPickle _ _ => true
  | _ => false

/-- Is the effect the SQL write of `save_report`? -/
def Effect.isToSql {E : Type} : Effect E → Bool
  | Effect.toSql _ _ _ _ => true
  | _ => false

/-- `save_model` of `train_classifier.py`:
`pickle.dump(model.best_estimator_, open(model_filepath, 'wb'))`. -/
def save_model {E : Type} (model : FittedSearch E) (model_filepath : String) :
    Effect E :=
  Effect.dumpPickle model_filepath (PickleObj.pipeline model.best_estimator_)

/-- `save_report` of `train_classifier.py`:
`df_report.to_sql('df_report', engine, index=False, if_exists='replace')`
against `create_engine('sqlite:///' + 'data/DisasterResponse.db')`. -/
def save_report {E : Type} (df_report : List ReportRow) : Effect E :=
  Effect.toSql "data/DisasterResponse.db" "df_report" "replace" df_report

/-- The SQLite world visible to the script: per database file, per table
name, the stored report rows. -/
def SqlWorld : Type := String → String → Option (List ReportRow)

/-- Semantics of the effects on stored tables: `to_sql(..., if_exists=
'replace')` drops any existing table of that name in that database file and
writes the new rows wholesale; no other effect touches storage. -/
def applyEffect {E : Type} (w : SqlWorld) : Effect E → SqlWorld
  | Effect.toSql db tbl _ rows =>
    fun d t => if d = db ∧ t = tbl then some rows else w d t
  | _ => w

/-- The ambient state a run of `main` depends on: the
`Categorized_Messages` table stored in each SQLite file, the shuffle the
unseeded RNG produces inside `train_test_split`, and sklearn's fitting
procedure (`GridSearchCV.fit`), abstracted as a function producing the
fitted search object. -/
structure Env (E : Type) where
  table : String → DataFrame
  perm : List Nat
  fit : GridSearchCfg → List Cell → List (List Cell) → FittedSearch E

/-- The split `main` computes for database path `db`. -/
def runSplit {E : Type} (env : Env E) (db : String) : SplitResult :=
  train_test_split (load_data (env.table db)).1 (load_data (env.table db)).2.1
    env.perm

/-- The fitted model of the run: `model.fit(X_train, Y_train)`. -/
def runFitted {E : Type} (env : Env E) (db : String) : FittedSearch E :=
  env.fit build_model (runSplit env db).x_train (runSplit env db).y_train

/-- The evaluation `main` performs:
`df_report = evaluate_model(model, X_test, Y_test, category_names)`. -/
def runEval {E : Type} (env : Env E) (db : String) : Option (List ReportRow) :=
  evaluate_model (runFitted env db).predict (runSplit env db).x_test
    (runSplit env db).y_test (load_data (env.table db)).2.2

/-- The usage message printed when the argument count is wrong (the
source's four implicitly concatenated string literals). -/
def usageMsg : String :=
  "Please provide the filepath of the disaster messages database " ++
  "as the first argument and the filepath of the pickle file to " ++
  "save the model to as the second argument. \n\nExample: python " ++
  "train_classifier.py ../data/DisasterResponse.db classifier.pkl"

namespace TrainClassifier

/-- `main` of `train_classifier.py` as its trace of effects.  `sys.argv`
(the script name followed by the positional arguments) is the `argv`
parameter; the `len(sys.argv) == 3` test is the three-element pattern.  If
`classification_report_df` raises inside `evaluate_model`, the run dies
there (`Effect.raised`) and nothing is persisted.  (The namespace keeps the
source's name `main` clear of Lean's program entry point.) -/
def main {E : Type} (env : Env E) (argv : List String) : List (Effect E) :=
  match argv with
  | [_, database_filepath, model_filepath] =>
    [Effect.print ("Loading data...\n    DATABASE: " ++ database_filepath),
     Effect.readSqlTable database_filepath "Categorized_Messages",
     Effect.splitData,
     Effect.print "Building model...",
     Effect.print "Training model...",
     Effect.gridSearchFit build_model,
     Effect.print "Evaluating model...",
     Effect.evaluated] ++
    (match runEval env database_filepath with
     | none => [Effect.raised]
     | some df_report =>
       [Effect.print ("Saving model...\n    MODEL: " ++ model_filepath),
        save_model (runFitted env database_filepath) model_filepath,
        Effect.print "Trained model saved!",
        save_report df_report,
        Effect.print "Model performance score saved!"])
  | _ => [Effect.print usageMsg]

end TrainClassifier

/-- The rational that `float()` recovers from the `fmt2` rendering of `q`
(the two printed fraction digits over 100). -/
def fmt2Val (q : ℚ) : ℚ :=
  let m := ratFloorNat (q * 100 + 1 / 2)
  ((m / 100 : ℕ) : ℚ) + ((10 * (m / 10 % 10) + (m % 10) : ℕ) : ℚ) / ((10 ^ 2 : ℕ) : ℚ)

/-- A category name the report round-trip can carry: non-empty, and free of
the separator characters (space, newline) of the textual report.  The
repository's category columns are snake_case words and satisfy this. -/
def goodName (n : String) : Bool :=
  !n.data.isEmpty && n.data.all (fun c => !(c == ' ') && !(c == '\n'))

/-- All category names are parseable report row labels. -/
def goodNames (names : List String) : Bool :=
  names.all goodName

/-- The rows `classification_report_df` recovers from the generated report:
one row per target name, labelled by it, with the formatted metric values
and the exact support count, label columns numbered from `j`. -/
def expRows (yT yP : List (List Cell)) : List String → Nat → List ReportRow
  | [], _ => []
  | n :: rest, j =>
    ⟨n, fmt2Val (precC yT yP j), fmt2Val (recC yT yP j), fmt2Val (f1C yT yP j),
     (suppC yT j : ℚ)⟩ :: expRows yT yP rest (j + 1)

/-- Well-formedness of one report line in the words of claim C10: at least
five non-empty space-separated fields, the second through fifth of which
parse as numbers. -/
def lineOk (line : List Char) : Bool :=
  5 ≤ (wordsOf line).length &&
    (((wordsOf line).drop 1).take 4).all (fun w => (pyFloat w).isSome)

/-- A concrete five-row table with the repository's schema, used to
instantiate the run-level theorems: row 0 carries both category labels. -/
def sampleDF : DataFrame :=
  ⟨["id", "message", "original", "genre", "water", "food"],
   [[Cell.num 0, Cell.str "m0", Cell.str "", Cell.str "direct", Cell.num 1, Cell.num 1],
    [Cell.num 1, Cell.str "m1", Cell.str "", Cell.str "direct", Cell.num 0, Cell.num 0],
    [Cell.num 2, Cell.str "m2", Cell.str "", Cell.str "direct", Cell.num 0, Cell.num 0],
    [Cell.num 3, Cell.str "m3", Cell.str "", Cell.str "direct", Cell.num 1, Cell.num 0],
    [Cell.num 4, Cell.str "m4", Cell.str "", Cell.str "direct", Cell.num 0, Cell.num 1]]⟩

/-- A prediction function marking every category positive. -/
def samplePredict : List Cell → List (List Cell) :=
  fun xs => xs.map (fun _ => [Cell.num 1, Cell.num 1])

/-- The split of the sample run with the identity shuffle: row 0 is the
single test row (`ceil(0.2 * 5) = 1`). -/
def sampleSplit : SplitResult :=
  train_test_split (load_data sampleDF).1 (load_data sampleDF).2.1 [0, 1, 2, 3, 4]

/-- A concrete environment for instantiating the run-level theorems: every
database file holds `sampleDF`, the shuffle is the identity, and fitting
yields a model that predicts every category positive. -/
def sampleEnv : Env Nat :=
  ⟨fun _ => sampleDF, [0, 1, 2, 3, 4], fun _ _ _ => ⟨0, none, samplePredict⟩⟩

/-! ### Lemmas about splitting and joining -/

theorem splitChar_ne_nil (sep : Char) (l : List Char) : splitChar sep l ≠ [] := by
  cases l with
  | nil => simp [splitChar]
  | cons c t =>
    simp only [splitChar]
    split
    · simp
    · split <;> simp_all

theorem splitChar_no_sep (sep : Char) (l : List Char)
    (h : ∀ c ∈ l, c ≠ sep) : splitChar sep l = [l] := by
  induction l with
  | nil => rfl
  | cons c t ih =>
    have hc : c ≠ sep := h c (by simp)
    have ht : splitChar sep t = [t] := ih (fun x hx => h x (by simp [hx]))
    simp [splitChar, hc, ht]

theorem splitChar_append_sep (sep : Char) (x y : List Char) :
    splitChar sep (x ++ sep :: y) = splitChar sep x ++ splitChar sep y := by
  induction x with
  | nil => simp [splitChar]
  | cons c t ih =>
    by_cases hc : c = sep
    · subst hc; simp [splitChar, ih]
    · simp only [List.cons_append, splitChar, hc, if_false]
      obtain ⟨h0, r0, hr⟩ : ∃ h0 r0, splitChar sep t = h0 :: r0 := by
        cases hst : splitChar sep t with
        | nil => exact absurd hst (splitChar_ne_nil sep t)
        | cons a b => exact ⟨a, b, rfl⟩
      have ih' : splitChar sep (t.append (sep :: y)) =
          splitChar sep t ++ splitChar sep y := ih
      rw [ih', hr]
      simp

theorem joinLines_cons (l : List Char) (l2 : List Char) (ls : List (List Char)) :
    joinLines (l :: l2 :: ls) = l ++ '\n' :: joinLines (l2 :: ls) := by
  rfl

theorem splitChar_joinLines (ls : List (List Char)) (hne : ls ≠ [])
    (h : ∀ l ∈ ls, ∀ c ∈ l, c ≠ '\n') :
    splitChar '\n' (joinLines ls) = ls := by
  induction ls with
  | nil => exact absurd rfl hne
  | cons l rest ih =>
    cases rest with
    | nil =>
      simp only [joinLines]
      exact splitChar_no_sep '\n' l (h l (by simp))
    | cons l2 ls2 =>
      rw [joinLines_cons, splitChar_append_sep,
        splitChar_no_sep '\n' l (h l (by simp)),
        ih (by simp) (fun a ha c hc => h a (by simp [ha]) c hc)]
      rfl

theorem wordsOf_append (x y : List Char) :
    wordsOf (x ++ ' ' :: y) = wordsOf x ++ wordsOf y := by
  unfold wordsOf
  rw [splitChar_append_sep, List.filter_append]

theorem wordsOf_single (w : List Char) (hne : w ≠ [])
    (h : ∀ c ∈ w, c ≠ ' ') : wordsOf w = [w] := by
  unfold wordsOf
  rw [splitChar_no_sep ' ' w h]
  simp [hne]

theorem pySlice2m6_sandwich {α : Type} (a b c d e f g h : α) (mid : List α) :
    pySlice2m6 ([a, b] ++ mid ++ [c, d, e, f, g, h]) = mid := by
  unfold pySlice2m6
  have hlen : ([a, b] ++ mid ++ [c, d, e, f, g, h]).length = mid.length + 8 := by
    simp
  rw [hlen]
  have h2 : mid.length + 8 - 6 = ([a, b] ++ mid).length := by simp
  rw [h2, List.take_left]
  rfl

/-! ### Lemmas about decimal digits and `natRepr` -/

theorem digitsVal_append_single (xs : List Char) (c : Char) :
    digitsVal (xs ++ [c]) = 10 * digitsVal xs + charVal c := by
  unfold digitsVal
  rw [List.foldl_append]
  rfl

theorem isDigitA_digitChar (d : Nat) (h : d < 10) :
    isDigitA (Nat.digitChar d) = true := by
  interval_cases d <;> decide

theorem charVal_digitChar (d : Nat) (h : d < 10) :
    charVal (Nat.digitChar d) = d := by
  interval_cases d <;> decide

theorem isDigitA_ne (c d : Char) (hc : isDigitA c = true)
    (hd : d.toNat < 48 ∨ 57 < d.toNat) : c ≠ d := by
  intro e
  subst e
  simp only [isDigitA, Bool.and_eq_true, decide_eq_true_eq] at hc
  omega

theorem natReprAux_spec (fuel : Nat) : ∀ n, n ≤ fuel →
    digitsVal (natReprAux fuel n) = n ∧
    (n ≠ 0 → natReprAux fuel n ≠ []) ∧
    (∀ c ∈ natReprAux fuel n, isDigitA c = true) := by
  induction fuel with
  | zero =>
    intro n hn
    have : n = 0 := Nat.le_zero.mp hn
    subst this
    refine ⟨rfl, fun h => absurd rfl h, by simp [natReprAux]⟩
  | succ fuel ih =>
    intro n hn
    by_cases h0 : n = 0
    · subst h0
      refine ⟨rfl, fun h => absurd rfl h, ?_⟩
      simp [natReprAux]
    · have hdiv : n / 10 ≤ fuel := by omega
      obtain ⟨ihv, _, ihd⟩ := ih (n / 10) hdiv
      have hmod : n % 10 < 10 := Nat.mod_lt _ (by omega)
      constructor
      · simp only [natReprAux, h0, if_false]
        rw [digitsVal_append_single, ihv, charVal_digitChar _ hmod]
        omega
      constructor
      · intro _
        simp [natReprAux, h0]
      · intro c hc
        simp only [natReprAux, h0, if_false, List.mem_append,
          List.mem_singleton] at hc
        rcases hc with hc | hc
        · exact ihd c hc
        · subst hc; exact isDigitA_digitChar _ hmod

theorem digitsVal_natRepr (n : Nat) : digitsVal (natRepr n) = n := by
  unfold natRepr
  by_cases h0 : n = 0
  · simp [h0]; rfl
  · simp only [h0, if_false]
    exact (natReprAux_spec n n (Nat.le_refl n)).1

theorem natRepr_ne_nil (n : Nat) : natRepr n ≠ [] := by
  unfold natRepr
  by_cases h0 : n = 0
  · simp [h0]
  · simp only [h0, if_false]
    exact (natReprAux_spec n n (Nat.le_refl n)).2.1 h0

theorem natRepr_digits (n : Nat) : ∀ c ∈ natRepr n, isDigitA c = true := by
  unfold natRepr
  by_cases h0 : n = 0
  · simp [h0]; decide
  · simp only [h0, if_false]
    exact (natReprAux_spec n n (Nat.le_refl n)).2.2

/-! ### Lemmas about `pyFloat` on generated fields -/

theorem takeWhile_all (p : Char → Bool) (l : List Char)
    (h : ∀ c ∈ l, p c = true) : l.takeWhile p = l := by
  induction l with
  | nil => rfl
  | cons c t ih =>
    have hc := h c (by simp)
    have ht := ih (fun x hx => h x (by simp [hx]))
    simp [List.takeWhile_cons, hc, ht]

theorem dropWhile_all (p : Char → Bool) (l : List Char)
    (h : ∀ c ∈ l, p c = true) : l.dropWhile p = [] := by
  induction l with
  | nil => rfl
  | cons c t ih =>
    simp only [List.dropWhile_cons, h c (by simp)]
    exact ih (fun x hx => h x (by simp [hx]))

theorem dropWhile_none (p : Char → Bool) (l : List Char)
    (h : ∀ c ∈ l, p c = false) : l.dropWhile p = l := by
  cases l with
  | nil => rfl
  | cons c t => simp [List.dropWhile_cons, h c (by simp)]

theorem takeWhile_append_stop (p : Char → Bool) (xs : List Char) (y : Char)
    (ys : List Char) (hx : ∀ c ∈ xs, p c = true) (hy : p y = false) :
    (xs ++ y :: ys).takeWhile p = xs := by
  induction xs with
  | nil => simp [List.takeWhile_cons, hy]
  | cons c t ih =>
    have hc := hx c (by simp)
    have ht := ih (fun x hx2 => hx x (by simp [hx2]))
    simp [List.takeWhile_cons, hc, ht]

theorem dropWhile_append_stop (p : Char → Bool) (xs : List Char) (y : Char)
    (ys : List Char) (hx : ∀ c ∈ xs, p c = true) (hy : p y = false) :
    (xs ++ y :: ys).dropWhile p = y :: ys := by
  induction xs with
  | nil => simp [List.dropWhile_cons, hy]
  | cons c t ih =>
    simp only [List.cons_append, List.dropWhile_cons, hx c (by simp)]
    exact ih (fun x hx2 => hx x (by simp [hx2]))

theorem stripWs_id (l : List Char) (h : ∀ c ∈ l, isPyWs c = false) :
    stripWs l = l := by
  unfold stripWs
  rw [dropWhile_none _ _ h, dropWhile_none _ _ (fun c hc => h c (by
    exact List.mem_reverse.mp hc)), List.reverse_reverse]

theorem digit_not_ws (c : Char) (h : isDigitA c = true) : isPyWs c = false := by
  simp only [isDigitA, Bool.and_eq_true, decide_eq_true_eq] at h
  simp only [isPyWs, Bool.or_eq_false_iff, decide_eq_false_iff_not]
  omega

theorem pyFloatUnsigned_digits (l : List Char) (hne : l ≠ [])
    (h : ∀ c ∈ l, isDigitA c = true) :
    pyFloatUnsigned l = some ((digitsVal l : ℚ)) := by
  unfold pyFloatUnsigned
  rw [takeWhile_all _ _ h, dropWhile_all _ _ h]
  simp [withExp, hne]

theorem pyFloat_natRepr (n : Nat) : pyFloat (natRepr n) = some ((n : ℚ)) := by
  have hd := natRepr_digits n
  have hs : stripWs (natRepr n) = natRepr n :=
    stripWs_id _ (fun c hc => digit_not_ws c (hd c hc))
  obtain ⟨c, t, hct⟩ : ∃ c t, natRepr n = c :: t := by
    cases hnr : natRepr n with
    | nil => exact absurd hnr (natRepr_ne_nil n)
    | cons a b => exact ⟨a, b, rfl⟩
  have hcd : isDigitA c = true := hd c (by rw [hct]; simp)
  have hplus : c ≠ '+' := isDigitA_ne c '+' hcd (by decide)
  have hminus : c ≠ '-' := isDigitA_ne c '-' hcd (by decide)
  unfold pyFloat
  rw [hs, hct]
  simp only [List.head?_cons, Option.some.injEq, hplus, hminus, if_false]
  rw [← hct, pyFloatUnsigned_digits _ (natRepr_ne_nil n) hd, digitsVal_natRepr]

theorem fmt2_eq (q : ℚ) :
    fmt2 q = natRepr (ratFloorNat (q * 100 + 1 / 2) / 100) ++ '.' ::
      [Nat.digitChar (ratFloorNat (q * 100 + 1 / 2) / 10 % 10),
       Nat.digitChar (ratFloorNat (q * 100 + 1 / 2) % 10)] := rfl

theorem fmt2_ne_nil (q : ℚ) : fmt2 q ≠ [] := by
  rw [fmt2_eq]
  simp [natRepr_ne_nil]

theorem fmt2_chars (q : ℚ) :
    ∀ c ∈ fmt2 q, isDigitA c = true ∨ c = '.' := by
  rw [fmt2_eq]
  intro c hc
  simp only [List.mem_append, List.mem_cons, List.not_mem_nil, or_false] at hc
  rcases hc with hc | hc | hc | hc
  · exact Or.inl (natRepr_digits _ c hc)
  · exact Or.inr hc
  · subst hc
    exact Or.inl (isDigitA_digitChar _ (Nat.mod_lt _ (by decide)))
  · subst hc
    exact Or.inl (isDigitA_digitChar _ (Nat.mod_lt _ (by decide)))

theorem fmt2_not_space (q : ℚ) : ∀ c ∈ fmt2 q, c ≠ ' ' := by
  intro c hc
  rcases fmt2_chars q c hc with h | h
  · exact isDigitA_ne c ' ' h (by decide)
  · subst h; decide

theorem fmt2_not_newline (q : ℚ) : ∀ c ∈ fmt2 q, c ≠ '\n' := by
  intro c hc
  rcases fmt2_chars q c hc with h | h
  · exact isDigitA_ne c '\n' h (by decide)
  · subst h; decide

theorem natRepr_not_space (n : Nat) : ∀ c ∈ natRepr n, c ≠ ' ' :=
  fun c hc => isDigitA_ne c ' ' (natRepr_digits n c hc) (by decide)

theorem natRepr_not_newline (n : Nat) : ∀ c ∈ natRepr n, c ≠ '\n' :=
  fun c hc => isDigitA_ne c '\n' (natRepr_digits n c hc) (by decide)

theorem digitsVal_pair (d e : Char) :
    digitsVal [d, e] = 10 * charVal d + charVal e := by
  simp [digitsVal, List.foldl]

theorem pyFloat_fmt2 (q : ℚ) : pyFloat (fmt2 q) = some (fmt2Val q) := by
  have hws : ∀ c ∈ fmt2 q, isPyWs c = false := by
    intro c hc
    rcases fmt2_chars q c hc with h | h
    · exact digit_not_ws c h
    · subst h; decide
  have hs : stripWs (fmt2 q) = fmt2 q := stripWs_id _ hws
  set m := ratFloorNat (q * 100 + 1 / 2) with hm
  obtain ⟨c, t, hct⟩ : ∃ c t, natRepr (m / 100) = c :: t := by
    cases hnr : natRepr (m / 100) with
    | nil => exact absurd hnr (natRepr_ne_nil _)
    | cons a b => exact ⟨a, b, rfl⟩
  have hcd : isDigitA c = true := natRepr_digits _ c (by rw [hct]; simp)
  have hplus : c ≠ '+' := isDigitA_ne c '+' hcd (by decide)
  have hminus : c ≠ '-' := isDigitA_ne c '-' hcd (by decide)
  unfold pyFloat
  rw [hs, fmt2_eq, ← hm, hct]
  simp only [List.cons_append, List.head?_cons, Option.some.injEq, hplus,
    hminus, if_false]
  rw [← List.cons_append, ← hct]
  unfold pyFloatUnsigned
  rw [takeWhile_append_stop _ _ '.' _ (natRepr_digits _) (by decide),
    dropWhile_append_stop _ _ '.' _ (natRepr_digits _) (by decide)]
  have hd1 : isDigitA (Nat.digitChar (m / 10 % 10)) = true :=
    isDigitA_digitChar _ (Nat.mod_lt _ (by decide))
  have hd2 : isDigitA (Nat.digitChar (m % 10)) = true :=
    isDigitA_digitChar _ (Nat.mod_lt _ (by decide))
  simp only [List.head?_cons, List.tail_cons, if_pos rfl]
  rw [takeWhile_all _ _ (by
      intro x hx
      simp only [List.mem_cons, List.mem_singleton] at hx
      rcases hx with hx | hx | hx
      · subst hx; exact hd1
      · subst hx; exact hd2
      · cases hx),
    dropWhile_all _ _ (by
      intro x hx
      simp only [List.mem_cons, List.mem_singleton] at hx
      rcases hx with hx | hx | hx
      · subst hx; exact hd1
      · subst hx; exact hd2
      · cases hx)]
  have hipne : (natRepr (m / 100)).isEmpty = false := by
    cases hnr : natRepr (m / 100) with
    | nil => exact absurd hnr (natRepr_ne_nil _)
    | cons a b => rfl
  have hv1 : charVal (Nat.digitChar (m / 10 % 10)) = m / 10 % 10 :=
    charVal_digitChar _ (Nat.mod_lt _ (by decide))
  have hv2 : charVal (Nat.digitChar (m % 10)) = m % 10 :=
    charVal_digitChar _ (Nat.mod_lt _ (by decide))
  simp [withExp, mantVal, fmt2Val, digitsVal_pair, digitsVal_natRepr, hipne,
    hv1, hv2, ← hm]
  rw [hm, one_div]

/-! ### Lemmas about report lines and the round-trip through the parser -/

theorem goodName_data (n : String) (h : goodName n = true) :
    n.data ≠ [] ∧ ∀ c ∈ n.data, c ≠ ' ' ∧ c ≠ '\n' := by
  unfold goodName at h
  rw [Bool.and_eq_true] at h
  obtain ⟨h1, h2⟩ := h
  refine ⟨?_, ?_⟩
  · intro hnil
    rw [hnil] at h1
    simp at h1
  · intro c hc
    have h3 := List.all_eq_true.mp h2 c hc
    simp only [Bool.and_eq_true, Bool.not_eq_true', beq_eq_false_iff_ne] at h3
    exact h3

theorem wordsOf_classLine (name : String) (p r f : ℚ) (s : Nat)
    (h : goodName name = true) :
    wordsOf (classLine name p r f s) =
      [name.data, fmt2 p, fmt2 r, fmt2 f, natRepr s] := by
  obtain ⟨hne, hch⟩ := goodName_data name h
  unfold classLine
  rw [wordsOf_append, wordsOf_append, wordsOf_append, wordsOf_append,
    wordsOf_single _ hne (fun c hc => (hch c hc).1),
    wordsOf_single _ (fmt2_ne_nil p) (fmt2_not_space p),
    wordsOf_single _ (fmt2_ne_nil r) (fmt2_not_space r),
    wordsOf_single _ (fmt2_ne_nil f) (fmt2_not_space f),
    wordsOf_single _ (natRepr_ne_nil s) (natRepr_not_space s)]
  rfl

theorem parseLine_classLine (name : String) (p r f : ℚ) (s : Nat)
    (h : goodName name = true) :
    parseLine (classLine name p r f s) =
      some ⟨name, fmt2Val p, fmt2Val r, fmt2Val f, (s : ℚ)⟩ := by
  unfold parseLine
  rw [wordsOf_classLine name p r f s h]
  simp [pyFloat_fmt2, pyFloat_natRepr]

theorem classLine_no_newline (name : String) (p r f : ℚ) (s : Nat)
    (h : ∀ c ∈ name.data, c ≠ '\n') :
    ∀ c ∈ classLine name p r f s, c ≠ '\n' := by
  intro c hc
  unfold classLine at hc
  rcases List.mem_append.mp hc with hc | hc
  · rcases List.mem_append.mp hc with hc | hc
    · rcases List.mem_append.mp hc with hc | hc
      · rcases List.mem_append.mp hc with hc | hc
        · exact h c hc
        · rcases List.mem_cons.mp hc with rfl | hc
          · decide
          · exact fmt2_not_newline p c hc
      · rcases List.mem_cons.mp hc with rfl | hc
        · decide
        · exact fmt2_not_newline r c hc
    · rcases List.mem_cons.mp hc with rfl | hc
      · decide
      · exact fmt2_not_newline f c hc
  · rcases List.mem_cons.mp hc with rfl | hc
    · decide
    · exact natRepr_not_newline s c hc

theorem goodNames_mem (names : List String) (h : goodNames names = true) :
    ∀ n ∈ names, goodName n = true := by
  unfold goodNames at h
  exact List.all_eq_true.mp h

theorem classLinesFrom_length (yT yP : List (List Cell)) (names : List String) :
    ∀ j, (classLinesFrom yT yP names j).length = names.length := by
  induction names with
  | nil => intro j; rfl
  | cons n rest ih =>
    intro j
    simp [classLinesFrom, ih (j + 1)]

theorem classLinesFrom_no_newline (yT yP : List (List Cell)) (names : List String)
    (h : goodNames names = true) :
    ∀ j, ∀ l ∈ classLinesFrom yT yP names j, ∀ c ∈ l, c ≠ '\n' := by
  induction names with
  | nil => intro j l hl; cases hl
  | cons n rest ih =>
    intro j l hl
    rcases List.mem_cons.mp hl with rfl | hl
    · exact classLine_no_newline n _ _ _ _
        (fun c hc => (goodName_data n (goodNames_mem _ h n (by simp)) ).2 c hc |>.2)
    · exact ih (by
        unfold goodNames at h ⊢
        simp only [List.all_cons, Bool.and_eq_true] at h
        exact h.2) (j + 1) l hl

theorem parseLinesLoop_classLinesFrom (yT yP : List (List Cell))
    (names : List String) (h : goodNames names = true) :
    ∀ j, parseLinesLoop (classLinesFrom yT yP names j) =
      some (expRows yT yP names j) := by
  induction names with
  | nil => intro j; rfl
  | cons n rest ih =>
    intro j
    have hn : goodName n = true := goodNames_mem _ h n (by simp)
    have hrest : goodNames rest = true := by
      unfold goodNames at h ⊢
      simp only [List.all_cons, Bool.and_eq_true] at h
      exact h.2
    simp only [classLinesFrom, parseLinesLoop, parseLine_classLine n _ _ _ _ hn,
      ih hrest (j + 1), expRows]

theorem reportLines_no_newline (yT yP : List (List Cell)) (names : List String)
    (h : goodNames names = true) :
    ∀ l ∈ reportLines yT yP names, ∀ c ∈ l, c ≠ '\n' := by
  intro l hl
  unfold reportLines at hl
  have hmicro : ∀ c ∈ ("micro avg" : String).data, c ≠ '\n' := by decide
  have hmac : ∀ c ∈ ("macro avg" : String).data, c ≠ '\n' := by decide
  have hw : ∀ c ∈ ("weighted avg" : String).data, c ≠ '\n' := by decide
  have hsamp : ∀ c ∈ ("samples avg" : String).data, c ≠ '\n' := by decide
  rcases List.mem_append.mp hl with hl | hl
  · rcases List.mem_append.mp hl with hl | hl
    · rcases List.mem_cons.mp hl with rfl | hl
      · decide
      · rcases List.mem_cons.mp hl with rfl | hl
        · intro c hc; cases hc
        · cases hl
    · exact classLinesFrom_no_newline yT yP names h 0 l hl
  · rcases List.mem_cons.mp hl with rfl | hl
    · intro c hc; cases hc
    · rcases List.mem_cons.mp hl with rfl | hl
      · exact classLine_no_newline _ _ _ _ _ hmicro
      · rcases List.mem_cons.mp hl with rfl | hl
        · exact classLine_no_newline _ _ _ _ _ hmac
        · rcases List.mem_cons.mp hl with rfl | hl
          · exact classLine_no_newline _ _ _ _ _ hw
          · rcases List.mem_cons.mp hl with rfl | hl
            · exact classLine_no_newline _ _ _ _ _ hsamp
            · rcases List.mem_cons.mp hl with rfl | hl
              · intro c hc; cases hc
              · cases hl

theorem reportLines_ne_nil (yT yP : List (List Cell)) (names : List String) :
    reportLines yT yP names ≠ [] := by
  unfold reportLines
  simp

theorem splitChar_report (yT yP : List (List Cell)) (names : List String)
    (h : goodNames names = true) :
    splitChar '\n' (classificationReport yT yP names) = reportLines yT yP names :=
  splitChar_joinLines _ (reportLines_ne_nil yT yP names)
    (reportLines_no_newline yT yP names h)

theorem pySlice_reportLines (yT yP : List (List Cell)) (names : List String) :
    pySlice2m6 (reportLines yT yP names) = classLinesFrom yT yP names 0 := by
  unfold reportLines
  have := pySlice2m6_sandwich headerLine ([] : List Char) ([] : List Char)
    (microLine yT yP names.length) (macLine yT yP names.length)
    (weightedLine yT yP names.length) (samplesLine yT yP names.length)
    ([] : List Char) (classLinesFrom yT yP names 0)
  simpa using this

theorem report_roundtrip (yT yP : List (List Cell)) (names : List String)
    (h : goodNames names = true) :
    classification_report_df (classificationReport yT yP names) =
      some (expRows yT yP names 0) := by
  unfold classification_report_df
  rw [splitChar_report yT yP names h]
  show parseLinesLoop (pySlice2m6 (reportLines yT yP names)) =
    some (expRows yT yP names 0)
  rw [pySlice_reportLines yT yP names]
  exact parseLinesLoop_classLinesFrom yT yP names h 0

theorem evaluate_model_eq (predict : List Cell → List (List Cell))
    (X_test : List Cell) (Y_test : List (List Cell)) (names : List String)
    (h : goodNames names = true) :
    evaluate_model predict X_test Y_test names =
      some (expRows Y_test (predict X_test) names 0) :=
  report_roundtrip Y_test (predict X_test) names h

theorem expRows_map_cls (yT yP : List (List Cell)) (names : List String) :
    ∀ j, (expRows yT yP names j).map ReportRow.cls = names := by
  induction names with
  | nil => intro j; rfl
  | cons n rest ih =>
    intro j
    simp [expRows, ih (j + 1)]

theorem expRows_length (yT yP : List (List Cell)) (names : List String) :
    ∀ j, (expRows yT yP names j).length = names.length := by
  induction names with
  | nil => intro j; rfl
  | cons n rest ih =>
    intro j
    simp [expRows, ih (j + 1)]

theorem expRows_get (yT yP : List (List Cell)) (names : List String) :
    ∀ j k name, names.get? k = some name →
      (expRows yT yP names j).get? k =
        some ⟨name, fmt2Val (precC yT yP (j + k)), fmt2Val (recC yT yP (j + k)),
          fmt2Val (f1C yT yP (j + k)), (suppC yT (j + k) : ℚ)⟩ := by
  induction names with
  | nil => intro j k name hk; cases hk
  | cons n rest ih =>
    intro j k name hk
    cases k with
    | zero =>
      simp only [List.get?] at hk
      cases hk
      simp [expRows]
    | succ k =>
      simp only [List.get?] at hk
      have h2 := ih (j + 1) k name hk
      have hidx : j + 1 + k = j + (k + 1) := by omega
      rw [hidx] at h2
      simpa [expRows, List.get?] using h2

/-! ### Lemmas about the tokenizer -/

theorem toNat_ofNat_small (n : Nat) (h : n < 55296) : (Char.ofNat n).toNat = n := by
  have hv : n.isValidChar := Or.inl h
  unfold Char.ofNat
  rw [dif_pos hv]
  rfl

theorem pyLower_lower (c : Char) (h : isAlnumA (pyLower c) = true) :
    isLowerAlnum (pyLower c) = true := by
  unfold pyLower at h ⊢
  by_cases hu : (decide (65 ≤ c.toNat) && decide (c.toNat ≤ 90)) = true
  · rw [if_pos hu] at h ⊢
    simp only [Bool.and_eq_true, decide_eq_true_eq] at hu
    have ht : (Char.ofNat (c.toNat + 32)).toNat = c.toNat + 32 :=
      toNat_ofNat_small _ (by omega)
    simp only [isLowerAlnum, ht, Bool.or_eq_true, Bool.and_eq_true,
      decide_eq_true_eq]
    omega
  · rw [if_neg hu] at h ⊢
    simp only [Bool.and_eq_true, decide_eq_true_eq, not_and_or, not_le] at hu
    simp only [isAlnumA, isLowerAlnum, Bool.or_eq_true, Bool.and_eq_true,
      decide_eq_true_eq] at h ⊢
    omega

theorem splitChar_mem_chars (sep : Char) (l : List Char) :
    ∀ piece ∈ splitChar sep l, ∀ c ∈ piece, c ∈ l ∧ c ≠ sep := by
  induction l with
  | nil =>
    intro piece hp c hc
    simp only [splitChar, List.mem_singleton] at hp
    subst hp
    cases hc
  | cons a t ih =>
    intro piece hp c hc
    by_cases ha : a = sep
    · subst ha
      simp only [splitChar, if_pos rfl] at hp
      rcases List.mem_cons.mp hp with rfl | hp
      · cases hc
      · obtain ⟨h1, h2⟩ := ih piece hp c hc
        exact ⟨by simp [h1], h2⟩
    · simp only [splitChar, ha, if_false] at hp
      cases hst : splitChar sep t with
      | nil => exact absurd hst (splitChar_ne_nil sep t)
      | cons h0 r0 =>
        rw [hst] at hp
        rcases List.mem_cons.mp hp with rfl | hp
        · rcases List.mem_cons.mp hc with rfl | hc
          · exact ⟨by simp, ha⟩
          · obtain ⟨h1, h2⟩ := ih h0 (by rw [hst]; simp) c hc
            exact ⟨by simp [h1], h2⟩
        · obtain ⟨h1, h2⟩ := ih piece (by rw [hst]; simp [hp]) c hc
          exact ⟨by simp [h1], h2⟩

theorem rawTokens_spec (text : String) :
    ∀ w ∈ rawTokens text, w.data ≠ [] ∧ ∀ c ∈ w.data, isLowerAlnum c = true := by
  intro w hw
  unfold rawTokens at hw
  rcases List.mem_map.mp hw with ⟨l, hl, rfl⟩
  unfold wordsOf at hl
  obtain ⟨hmem, hnonempty⟩ := List.mem_filter.mp hl
  constructor
  · show l ≠ []
    intro hnil
    subst hnil
    simp at hnonempty
  · intro c hc
    obtain ⟨hcl, hcsep⟩ := splitChar_mem_chars ' ' (normalizeText text) l hmem c hc
    unfold normalizeText at hcl
    rcases List.mem_map.mp hcl with ⟨c1, hc1, hc2⟩
    rcases List.mem_map.mp hc1 with ⟨c0, _, rfl⟩
    by_cases hA : isAlnumA (pyLower c0) = true
    · rw [if_pos hA] at hc2
      subst hc2
      exact pyLower_lower c0 hA
    · rw [if_neg hA] at hc2
      subst hc2
      exact absurd rfl hcsep

theorem lookup_mem (l : List (String × String)) (a : String) (b : String)
    (h : l.lookup a = some b) : (a, b) ∈ l := by
  induction l with
  | nil => cases h
  | cons p t ih =>
    obtain ⟨k, v⟩ := p
    simp only [List.lookup] at h
    cases hek : (a == k) with
    | true =>
      rw [hek] at h
      cases h
      have hak : a = k := eq_of_beq hek
      subst hak
      simp
    | false =>
      rw [hek] at h
      exact List.mem_cons_of_mem _ (ih h)

theorem goodTok_noun (w : String)
    (h : w.data ≠ [] ∧ ∀ c ∈ w.data, isLowerAlnum c = true) :
    (wn_lemmatize_noun w).data ≠ [] ∧
      ∀ c ∈ (wn_lemmatize_noun w).data, isLowerAlnum c = true := by
  unfold wn_lemmatize_noun
  cases hl : wordnetNounTable.lookup w with
  | none => exact h
  | some l =>
    have hmem : (w, l) ∈ wordnetNounTable := lookup_mem _ _ _ hl
    have htab : ∀ p ∈ wordnetNounTable,
        p.2.data ≠ [] ∧ ∀ c ∈ p.2.data, isLowerAlnum c = true := by decide
    exact htab (w, l) hmem

theorem goodTok_verb (w : String)
    (h : w.data ≠ [] ∧ ∀ c ∈ w.data, isLowerAlnum c = true) :
    (wn_lemmatize_verb w).data ≠ [] ∧
      ∀ c ∈ (wn_lemmatize_verb w).data, isLowerAlnum c = true := by
  unfold wn_lemmatize_verb
  cases hl : wordnetVerbTable.lookup w with
  | none => exact h
  | some l =>
    have hmem : (w, l) ∈ wordnetVerbTable := lookup_mem _ _ _ hl
    have htab : ∀ p ∈ wordnetVerbTable,
        p.2.data ≠ [] ∧ ∀ c ∈ p.2.data, isLowerAlnum c = true := by decide
    exact htab (w, l) hmem

theorem tokenize_mem_structure (text : String) :
    ∀ t ∈ tokenize text, ∃ w, w ∈ rawTokens text ∧
      stop_words.contains w = false ∧
      t = wn_lemmatize_verb (wn_lemmatize_noun w) := by
  intro t ht
  unfold tokenize at ht
  rcases List.mem_map.mp ht with ⟨u, hu, rfl⟩
  rcases List.mem_map.mp hu with ⟨w, hw, rfl⟩
  obtain ⟨hmem, hkeep⟩ := List.mem_filter.mp hw
  refine ⟨w, hmem, ?_, rfl⟩
  simpa using hkeep

/-! ### Lemmas about the parser's slice and failure behaviour -/

theorem pySlice2m6_drop_take {α : Type} (l : List α) :
    pySlice2m6 l = (l.drop 2).take (l.length - 8) := by
  unfold pySlice2m6
  rw [List.drop_take]
  have h68 : l.length - 6 - 2 = l.length - 8 := by omega
  rw [h68]

theorem pySlice2m6_short {α : Type} (l : List α) (h : l.length ≤ 8) :
    pySlice2m6 l = [] := by
  unfold pySlice2m6
  apply List.drop_eq_nil_of_le
  rw [List.length_take]
  omega

theorem parseLine_isSome (line : List Char) :
    (parseLine line).isSome = lineOk line := by
  unfold parseLine lineOk
  cases hw : wordsOf line with
  | nil => simp [hw]
  | cons f0 t0 =>
    cases t0 with
    | nil => simp [hw]
    | cons f1 t1 =>
      cases t1 with
      | nil =>
        cases h1 : pyFloat f1 <;> simp [hw, h1, Option.bind]
      | cons f2 t2 =>
        cases t2 with
        | nil =>
          cases h1 : pyFloat f1 <;> cases h2 : pyFloat f2 <;>
            simp [hw, h1, h2, Option.bind]
        | cons f3 t3 =>
          cases t3 with
          | nil =>
            cases h1 : pyFloat f1 <;> cases h2 : pyFloat f2 <;>
              cases h3 : pyFloat f3 <;> simp [hw, h1, h2, h3, Option.bind]
          | cons f4 t4 =>
            cases h1 : pyFloat f1 <;> cases h2 : pyFloat f2 <;>
              cases h3 : pyFloat f3 <;> cases h4 : pyFloat f4 <;>
              simp [hw, h1, h2, h3, h4, Option.bind]

theorem parseLinesLoop_isSome (ls : List (List Char)) :
    (parseLinesLoop ls).isSome = ls.all lineOk := by
  induction ls with
  | nil => rfl
  | cons l rest ih =>
    rw [List.all_cons, ← parseLine_isSome l, ← ih]
    cases h1 : parseLine l with
    | none => simp [parseLinesLoop, h1]
    | some row =>
      cases h2 : parseLinesLoop rest with
      | none => simp [parseLinesLoop, h1, h2]
      | some rows => simp [parseLinesLoop, h1, h2]

/-! ### Claim theorems -/

/-- Claim C1, counterexample: the claim asserts the output of `tokenize`
contains no stop words, but lemmatization can map a non-stop word to a stop
word: `tokenize "cans"` is `["can"]` (WordNet noun lemma of `cans`), and
`can` is on the NLTK English stop-word list. -/
theorem C1_counterexample :
    "can" ∈ tokenize "cans" ∧ "can" ∈ stop_words := by
  decide

/-- Claim C1, amended: `tokenize` case-folds, replaces non-alphanumerics by
spaces, tokenizes, drops English stop words, then lemmatizes each remaining
token as a noun and re-lemmatizes as a verb, in that order; every output
token is a non-empty string of lowercase alphanumeric characters (hence no
punctuation), and every output token is the lemmatization of a
non-stop-word token of the normalized text — but lemmatization may
reintroduce a stop word, so "no stop words in the output" holds only of the
token stream before lemmatization.  The example input
"Help! We NEED water, 2 bottles." yields exactly ["help", "need", "water",
"2", "bottle"], without "we". -/
theorem C1_amended :
    (∀ s t, t ∈ tokenize s → t.data ≠ [] ∧ ∀ c ∈ t.data, isLowerAlnum c = true) ∧
    (∀ s t, t ∈ tokenize s → ∃ w, w ∈ rawTokens s ∧
      stop_words.contains w = false ∧
      t = wn_lemmatize_verb (wn_lemmatize_noun w)) ∧
    tokenize "Help! We NEED water, 2 bottles." =
      ["help", "need", "water", "2", "bottle"] ∧
    "we" ∉ tokenize "Help! We NEED water, 2 bottles." := by
  refine ⟨?_, tokenize_mem_structure, by decide, by decide⟩
  intro s t ht
  obtain ⟨w, hw, _, rfl⟩ := tokenize_mem_structure s t ht
  exact goodTok_verb _ (goodTok_noun _ (rawTokens_spec s w hw))

/-- Claim C1, witness: the amended theorem applied at the example input,
for the output tokens "help" and "bottle". -/
theorem C1_witness :
    ("help".data ≠ [] ∧ ∀ c ∈ "help".data, isLowerAlnum c = true) ∧
    (∃ w, w ∈ rawTokens "Help! We NEED water, 2 bottles." ∧
      stop_words.contains w = false ∧
      "bottle" = wn_lemmatize_verb (wn_lemmatize_noun w)) :=
  ⟨C1_amended.1 "Help! We NEED water, 2 bottles." "help" (by decide),
   C1_amended.2.1 "Help! We NEED water, 2 bottles." "bottle" (by decide)⟩

/-- Claim C5: `build_model` configures the vectorizer with unigrams and
bigrams and a 0.5 document-frequency ceiling, no base vocabulary cap, a
TF-IDF stage and a multi-output one-vs-rest LinearSVC classifier, wrapped in
a grid search whose only varied parameter is the vocabulary cap over
`(None, 10000)`, scored by macro-averaged F1, with a single worker. -/
theorem C5_build_model_config :
    build_model.estimator.vect.ngram_range = (1, 2) ∧
    build_model.estimator.vect.max_df = 1 / 2 ∧
    build_model.estimator.vect.max_features = none ∧
    build_model.estimator.tfidf = true ∧
    build_model.estimator.multi_clf =
      ClfCfg.multiOutput (ClfCfg.oneVsRest BaseClf.linearSVC) ∧
    build_model.param_grid_max_features = [none, some 10000] ∧
    build_model.scoring = "f1_macro" ∧
    build_model.n_jobs = 1 :=
  ⟨rfl, rfl, rfl, rfl, rfl, rfl, rfl, rfl⟩

/-- Claim C4: `save_model` pickles the grid search's fitted best pipeline
(`best_estimator_`), never the search wrapper object, to the given path;
and in a successful run `main` calls it with the command-line model path. -/
theorem C4_save_model_best_estimator (E : Type) (m : FittedSearch E)
    (path : String) :
    save_model m path =
      Effect.dumpPickle path (PickleObj.pipeline m.best_estimator_) ∧
    (∀ g : FittedSearch E,
      save_model m path ≠ Effect.dumpPickle path (PickleObj.searchWrapper g)) ∧
    (∀ (env : Env E) (prog db : String) (rows : List ReportRow),
      runEval env db = some rows →
      save_model (runFitted env db) path ∈
        TrainClassifier.main env [prog, db, path]) := by
  refine ⟨rfl, ?_, ?_⟩
  · intro g he
    simp [save_model] at he
  · intro env prog db rows hrun
    simp [TrainClassifier.main, hrun]

/-- Claim C4, witness: the concrete sample run, whose evaluation succeeds,
contains the pickle dump of the fitted best estimator at the model path. -/
theorem C4_witness :
    save_model (runFitted sampleEnv "db") "model.pkl" ∈
      TrainClassifier.main sampleEnv ["train_classifier.py", "db", "model.pkl"] :=
  (C4_save_model_best_estimator Nat (runFitted sampleEnv "db") "model.pkl").2.2
    sampleEnv "train_classifier.py" "db"
    [⟨"water", 1, 1, 1, 1⟩, ⟨"food", 1, 1, 1, 1⟩]
    (by with_unfolding_all decide)

/-- Claim C3: when the number of positional command-line arguments differs
from two (i.e. `len(sys.argv) ≠ 3`), `main` prints the usage message and
performs no work — its whole effect trace is that one print; with exactly
two arguments the full load → split → build → train → evaluate → save-model
→ save-report sequence runs (spelled out for a run whose evaluation
succeeds; an evaluation failure would abort with an exception after the
evaluate step, before any persistence). -/
theorem C3_argument_contract :
    (∀ (E : Type) (env : Env E) (argv : List String), argv.length ≠ 3 →
      TrainClassifier.main env argv = [Effect.print usageMsg]) ∧
    (∀ (E : Type) (env : Env E) (prog db mp : String) (rows : List ReportRow),
      runEval env db = some rows →
      TrainClassifier.main env [prog, db, mp] =
        [Effect.print ("Loading data...\n    DATABASE: " ++ db),
         Effect.readSqlTable db "Categorized_Messages",
         Effect.splitData,
         Effect.print "Building model...",
         Effect.print "Training model...",
         Effect.gridSearchFit build_model,
         Effect.print "Evaluating model...",
         Effect.evaluated,
         Effect.print ("Saving model...\n    MODEL: " ++ mp),
         save_model (runFitted env db) mp,
         Effect.print "Trained model saved!",
         save_report rows,
         Effect.print "Model performance score saved!"]) := by
  constructor
  · intro E env argv hlen
    rcases argv with _ | ⟨a, _ | ⟨b, _ | ⟨c, rest⟩⟩⟩
    · rfl
    · rfl
    · rfl
    · cases rest with
      | nil => simp at hlen
      | cons d t => rfl
  · intro E env prog db mp rows h
    simp only [TrainClassifier.main, h]
    rfl

/-- Claim C3, witness: one argument yields only the usage print; two
arguments yield the full trace, instantiated on the sample run. -/
theorem C3_witness :
    TrainClassifier.main sampleEnv ["train_classifier.py"] =
      [Effect.print usageMsg] ∧
    TrainClassifier.main sampleEnv ["train_classifier.py", "db", "model.pkl"] =
      [Effect.print ("Loading data...\n    DATABASE: " ++ "db"),
       Effect.readSqlTable "db" "Categorized_Messages",
       Effect.splitData,
       Effect.print "Building model...",
       Effect.print "Training model...",
       Effect.gridSearchFit build_model,
       Effect.print "Evaluating model...",
       Effect.evaluated,
       Effect.print ("Saving model...\n    MODEL: " ++ "model.pkl"),
       save_model (runFitted sampleEnv "db") "model.pkl",
       Effect.print "Trained model saved!",
       save_report [⟨"water", 1, 1, 1, 1⟩, ⟨"food", 1, 1, 1, 1⟩],
       Effect.print "Model performance score saved!"] :=
  ⟨C3_argument_contract.1 Nat sampleEnv ["train_classifier.py"] (by decide),
   C3_argument_contract.2 Nat sampleEnv "train_classifier.py" "db" "model.pkl"
     [⟨"water", 1, 1, 1, 1⟩, ⟨"food", 1, 1, 1, 1⟩]
     (by with_unfolding_all decide)⟩

/-- Claim C8: `save_report` always writes the report to the fixed,
hard-coded database file `data/DisasterResponse.db`, table `df_report`,
with `if_exists='replace'` semantics that substitute the new rows for any
previously stored table of that name; in a successful run, this effect
appears in `main`'s trace with the same hard-coded path no matter which
database path the command line supplied. -/
theorem C8_save_report_hardcoded :
    (∀ (E : Type) (rows : List ReportRow),
      @save_report E rows =
        Effect.toSql "data/DisasterResponse.db" "df_report" "replace" rows) ∧
    (∀ (E : Type) (w : SqlWorld) (rows : List ReportRow),
      applyEffect w (@save_report E rows) "data/DisasterResponse.db"
        "df_report" = some rows) ∧
    (∀ (E : Type) (env : Env E) (prog db mp : String) (rows : List ReportRow),
      runEval env db = some rows →
      Effect.toSql "data/DisasterResponse.db" "df_report" "replace" rows ∈
        TrainClassifier.main env [prog, db, mp]) := by
  refine ⟨fun E rows => rfl, ?_, ?_⟩
  · intro E w rows
    simp [applyEffect, save_report]
  · intro E env prog db mp rows hrun
    have hs : @save_report E rows =
        Effect.toSql "data/DisasterResponse.db" "df_report" "replace" rows := rfl
    rw [← hs]
    simp [TrainClassifier.main, hrun]

/-- Claim C8, witness: the sample run, launched with the command-line
database path "some/other.db", still writes its report to the hard-coded
`data/DisasterResponse.db`. -/
theorem C8_witness :
    Effect.toSql "data/DisasterResponse.db" "df_report" "replace"
        [(⟨"water", 1, 1, 1, 1⟩ : ReportRow), ⟨"food", 1, 1, 1, 1⟩] ∈
      TrainClassifier.main sampleEnv
        ["train_classifier.py", "some/other.db", "model.pkl"] :=
  C8_save_report_hardcoded.2.2 Nat sampleEnv "train_classifier.py"
    "some/other.db" "model.pkl" [⟨"water", 1, 1, 1, 1⟩, ⟨"food", 1, 1, 1, 1⟩]
    (by with_unfolding_all decide)

/-- Claim C9: in every successful run, the trace of `main` holds the pickle
dump of the model (position 9) strictly before the SQL write of the report
(position 11), and no SQL write occurs anywhere before that: if writing the
report fails, the serialized model file has already been written. -/
theorem C9_model_saved_before_report (E : Type) (env : Env E)
    (prog db mp : String) (rows : List ReportRow)
    (h : runEval env db = some rows) :
    ∃ i j, i < j ∧
      (TrainClassifier.main env [prog, db, mp]).get? i =
        some (save_model (runFitted env db) mp) ∧
      (TrainClassifier.main env [prog, db, mp]).get? j =
        some (save_report rows) ∧
      ∀ e ∈ (TrainClassifier.main env [prog, db, mp]).take j,
        Effect.isToSql e = false := by
  refine ⟨9, 11, by omega, ?_, ?_, ?_⟩
  · simp only [TrainClassifier.main, h]
    rfl
  · simp only [TrainClassifier.main, h]
    rfl
  · intro e he
    simp only [TrainClassifier.main, h] at he
    simp only [List.cons_append, List.nil_append, List.take,
      List.mem_cons, List.not_mem_nil, or_false] at he
    rcases he with rfl | rfl | rfl | rfl | rfl | rfl | rfl | rfl | rfl | rfl | rfl
      <;> rfl

/-- Claim C9, witness: the ordering instantiated on the sample run. -/
theorem C9_witness :
    ∃ i j, i < j ∧
      (TrainClassifier.main sampleEnv
        ["train_classifier.py", "db", "model.pkl"]).get? i =
        some (save_model (runFitted sampleEnv "db") "model.pkl") ∧
      (TrainClassifier.main sampleEnv
        ["train_classifier.py", "db", "model.pkl"]).get? j =
        some (save_report [⟨"water", 1, 1, 1, 1⟩, ⟨"food", 1, 1, 1, 1⟩]) ∧
      ∀ e ∈ (TrainClassifier.main sampleEnv
        ["train_classifier.py", "db", "model.pkl"]).take j,
        Effect.isToSql e = false :=
  C9_model_saved_before_report Nat sampleEnv "train_classifier.py" "db"
    "model.pkl" [⟨"water", 1, 1, 1, 1⟩, ⟨"food", 1, 1, 1, 1⟩]
    (by with_unfolding_all decide)

/-- Claim C2: for every run (any loaded table, any shuffle, any fitted
model), provided the category names can appear as report row labels at all
(non-empty, no space or newline — true of the repository's snake_case
category columns), the row labels of the dataframe `evaluate_model` returns
are exactly the category names `load_data` returned — the columns of the
label dataframe from index 4 onward — in the same order. -/
theorem C2_category_order_matches (df : DataFrame) (perm : List Nat)
    (predict : List Cell → List (List Cell))
    (h : goodNames (load_data df).2.2 = true) :
    ∃ rows, evaluate_model predict
        (train_test_split (load_data df).1 (load_data df).2.1 perm).x_test
        (train_test_split (load_data df).1 (load_data df).2.1 perm).y_test
        (load_data df).2.2 = some rows ∧
      rows.map ReportRow.cls = (load_data df).2.2 :=
  ⟨_, evaluate_model_eq _ _ _ _ h, expRows_map_cls _ _ _ 0⟩

/-- Claim C2, witness: the sample run, whose category names are
`["water", "food"]`. -/
theorem C2_witness :
    ∃ rows, evaluate_model samplePredict
        (train_test_split (load_data sampleDF).1 (load_data sampleDF).2.1
          [0, 1, 2, 3, 4]).x_test
        (train_test_split (load_data sampleDF).1 (load_data sampleDF).2.1
          [0, 1, 2, 3, 4]).y_test
        (load_data sampleDF).2.2 = some rows ∧
      rows.map ReportRow.cls = (load_data sampleDF).2.2 :=
  C2_category_order_matches sampleDF [0, 1, 2, 3, 4] samplePredict (by decide)

/-- Claim C6, counterexample: in the sample run (five loaded rows, one
20%-test row carrying both category labels, a model predicting every label),
the evaluation report's supports are 1 and 1, summing to 2, while the
held-out test split has exactly 1 element — the supports do not sum to the
test-split size. -/
theorem C6_counterexample :
    evaluate_model samplePredict sampleSplit.x_test sampleSplit.y_test
        (load_data sampleDF).2.2 =
      some [⟨"water", 1, 1, 1, 1⟩, ⟨"food", 1, 1, 1, 1⟩] ∧
    (([⟨"water", 1, 1, 1, 1⟩, ⟨"food", 1, 1, 1, 1⟩] : List ReportRow).map
      ReportRow.support).sum = 2 ∧
    sampleSplit.x_test.length = 1 ∧
    (2 : ℚ) ≠ (1 : ℚ) := by
  refine ⟨by with_unfolding_all decide, by with_unfolding_all decide,
    by with_unfolding_all decide, by with_unfolding_all decide⟩

/-- Claim C6, amended: the support of the `k`-th row of the evaluation
report is the number of held-out test samples whose `k`-th category is
positive (the column sum of the test label matrix), not a share of the
test-split size; the supports sum to the total number of positive labels in
the test split, which equals the split size only when each test row carries
exactly one positive label.  The split itself holds `ceil(0.2 * n)` rows. -/
theorem C6_amended (df : DataFrame) (perm : List Nat)
    (predict : List Cell → List (List Cell))
    (h : goodNames (load_data df).2.2 = true) :
    ∃ rows, evaluate_model predict
        (train_test_split (load_data df).1 (load_data df).2.1 perm).x_test
        (train_test_split (load_data df).1 (load_data df).2.1 perm).y_test
        (load_data df).2.2 = some rows ∧
      rows.length = (load_data df).2.2.length ∧
      (∀ k name, (load_data df).2.2.get? k = some name →
        rows.get? k = some
          ⟨name,
           fmt2Val (precC
             (train_test_split (load_data df).1 (load_data df).2.1 perm).y_test
             (predict (train_test_split (load_data df).1 (load_data df).2.1
               perm).x_test) k),
           fmt2Val (recC
             (train_test_split (load_data df).1 (load_data df).2.1 perm).y_test
             (predict (train_test_split (load_data df).1 (load_data df).2.1
               perm).x_test) k),
           fmt2Val (f1C
             (train_test_split (load_data df).1 (load_data df).2.1 perm).y_test
             (predict (train_test_split (load_data df).1 (load_data df).2.1
               perm).x_test) k),
           (suppC
             (train_test_split (load_data df).1 (load_data df).2.1 perm).y_test
             k : ℚ)⟩) := by
  refine ⟨_, evaluate_model_eq _ _ _ _ h, expRows_length _ _ _ 0, ?_⟩
  intro k name hk
  have hg := expRows_get
    (train_test_split (load_data df).1 (load_data df).2.1 perm).y_test
    (predict (train_test_split (load_data df).1 (load_data df).2.1 perm).x_test)
    (load_data df).2.2 0 k name hk
  simpa using hg

/-- Claim C6, witness: the amended statement instantiated on the sample
run. -/
theorem C6_witness :
    ∃ rows, evaluate_model samplePredict
        (train_test_split (load_data sampleDF).1 (load_data sampleDF).2.1
          [0, 1, 2, 3, 4]).x_test
        (train_test_split (load_data sampleDF).1 (load_data sampleDF).2.1
          [0, 1, 2, 3, 4]).y_test
        (load_data sampleDF).2.2 = some rows ∧
      rows.length = (load_data sampleDF).2.2.length ∧
      (∀ k name, (load_data sampleDF).2.2.get? k = some name →
        rows.get? k = some
          ⟨name,
           fmt2Val (precC
             (train_test_split (load_data sampleDF).1 (load_data sampleDF).2.1
               [0, 1, 2, 3, 4]).y_test
             (samplePredict (train_test_split (load_data sampleDF).1
               (load_data sampleDF).2.1 [0, 1, 2, 3, 4]).x_test) k),
           fmt2Val (recC
             (train_test_split (load_data sampleDF).1 (load_data sampleDF).2.1
               [0, 1, 2, 3, 4]).y_test
             (samplePredict (train_test_split (load_data sampleDF).1
               (load_data sampleDF).2.1 [0, 1, 2, 3, 4]).x_test) k),
           fmt2Val (f1C
             (train_test_split (load_data sampleDF).1 (load_data sampleDF).2.1
               [0, 1, 2, 3, 4]).y_test
             (samplePredict (train_test_split (load_data sampleDF).1
               (load_data sampleDF).2.1 [0, 1, 2, 3, 4]).x_test) k),
           (suppC
             (train_test_split (load_data sampleDF).1 (load_data sampleDF).2.1
               [0, 1, 2, 3, 4]).y_test k : ℚ)⟩) :=
  C6_amended sampleDF [0, 1, 2, 3, 4] samplePredict (by decide)

/-- Claim C7: `classification_report_df` parses exactly the lines of the
report from index 2 up to but excluding the sixth-from-last (by fixed
offsets: the parsed lines are `drop 2` of the split, capped at
`length - 8` of them), and each parsed line yields one row whose `class`,
`precision`, `recall`, `f1_score` and `support` columns come from the first
five non-empty space-separated fields of that line. -/
theorem C7_fixed_slice_parsing (report : List Char) :
    classification_report_df report =
      parseLinesLoop (((splitChar '\n' report).drop 2).take
        ((splitChar '\n' report).length - 8)) ∧
    (∀ (line f0 f1 f2 f3 f4 : List Char) (rest : List (List Char))
        (v1 v2 v3 v4 : ℚ),
      wordsOf line = f0 :: f1 :: f2 :: f3 :: f4 :: rest →
      pyFloat f1 = some v1 → pyFloat f2 = some v2 → pyFloat f3 = some v3 →
      pyFloat f4 = some v4 →
      parseLine line = some ⟨String.mk f0, v1, v2, v3, v4⟩) := by
  constructor
  · show parseLinesLoop (pySlice2m6 (splitChar '\n' report)) = _
    rw [pySlice2m6_drop_take]
  · intro line f0 f1 f2 f3 f4 rest v1 v2 v3 v4 hw h1 h2 h3 h4
    unfold parseLine
    rw [hw]
    simp [h1, h2, h3, h4, Option.bind]

/-- Claim C7, witness: the field semantics applied to a concrete line with
five fields (and the slice equation at a concrete report). -/
theorem C7_witness :
    parseLine ("water 0.83 0.90 0.86 102".data) =
      some ⟨String.mk "water".data, 83 / 100, 90 / 100, 86 / 100, 102⟩ :=
  (C7_fixed_slice_parsing []).2 "water 0.83 0.90 0.86 102".data
    "water".data "0.83".data "0.90".data "0.86".data "102".data []
    (83 / 100) (90 / 100) (86 / 100) 102
    (by decide) (by with_unfolding_all decide) (by with_unfolding_all decide)
    (by with_unfolding_all decide) (by with_unfolding_all decide)

/-- Claim C10: a report of at most eight lines parses to the empty
dataframe without raising; a longer report parses successfully exactly when
every line in the `[2:-6]` range splits into at least five non-empty
space-separated fields whose second through fifth fields parse as numbers —
otherwise the parse raises (returns `none`). -/
theorem C10_short_reports_and_failure :
    (∀ report : List Char, (splitChar '\n' report).length ≤ 8 →
      classification_report_df report = some []) ∧
    (∀ report : List Char,
      (classification_report_df report).isSome =
        (pySlice2m6 (splitChar '\n' report)).all lineOk) := by
  constructor
  · intro report hlen
    show parseLinesLoop (pySlice2m6 (splitChar '\n' report)) = some []
    rw [pySlice2m6_short _ hlen]
    rfl
  · intro report
    show (parseLinesLoop (pySlice2m6 (splitChar '\n' report))).isSome = _
    exact parseLinesLoop_isSome _

/-- Claim C10, witness: a concrete three-line report parses to the empty
dataframe, and a concrete ten-line report with a malformed body line is
recognized as failing. -/
theorem C10_witness :
    classification_report_df "header\n\nbody".data = some [] ∧
    (classification_report_df
        "h\n\nbad line\nx 1 2 3 4\n\nm\nm\nw\ns\n".data).isSome =
      (pySlice2m6 (splitChar '\n'
        "h\n\nbad line\nx 1 2 3 4\n\nm\nm\nw\ns\n".data)).all lineOk :=
  ⟨C10_short_reports_and_failure.1 "header\n\nbody".data (by decide),
   C10_short_reports_and_failure.2 "h\n\nbad line\nx 1 2 3 4\n\nm\nm\nw\ns\n".data⟩
